import Mathlib

/-!
Verification of the extension feature access/enablement bookkeeping service
(`ExtensionFeaturesManagementService` in
`src/vs/workbench/services/extensionManagement/common/extensionFeaturesManagemetService.ts`).

The service is shallowly embedded: the mutable map-of-maps state becomes an
association list of association lists, `Date.now()` and the confirmation
dialog outcome become explicit parameters, thrown errors become `Except`,
and emitted events are collected into lists.
-/

set_option autoImplicit false

namespace ExtensionFeaturesManagement

/-- A registered extension feature (`IExtensionFeatureDescriptor`): only the
fields the service reads are modelled. -/
structure ExtensionFeature where
  id : String
  label : String
  description : String
deriving DecidableEq, Repr

/-- The `{ severity, message }` status payload of `setStatus`. -/
structure FeatureStatus where
  severity : Nat
  message : String
deriving DecidableEq, Repr

/-- The `current` session slice of `IExtensionFeatureAccessData`. -/
structure CurrentAccessData where
  count : Nat
  lastAccessed : Nat
  status : Option FeatureStatus
deriving DecidableEq, Repr

/-- `IExtensionFeatureAccessData`: lifetime total plus optional session data. -/
structure AccessData where
  totalCount : Nat
  current : Option CurrentAccessData
deriving DecidableEq, Repr

/-- `IExtensionFeatureState`: `disabled?: boolean` plus the access data. -/
structure FeatureState where
  disabled : Option Bool
  accessData : AccessData
deriving DecidableEq, Repr

/-- The in-memory `Map<string, Map<string, IExtensionFeatureState>>`,
keyed by extension identifier then feature id. -/
abbrev FeaturesState := List (String × List (String × FeatureState))

/-- One persisted entry: `{ disabled?: boolean; accessCount: number }`. -/
structure PersistedFeature where
  disabled : Option Bool
  accessCount : Nat
deriving DecidableEq, Repr

/-- The JSON dictionary stored under `extension.features.state`. -/
abbrev PersistedData := List (String × List (String × PersistedFeature))

/-- The service: the feature registry collaborator, the in-memory state map
and the profile-scoped storage value. -/
structure Service where
  registry : List ExtensionFeature
  state : FeaturesState
  storage : PersistedData
deriving DecidableEq, Repr

/-- Events emitted by the service (`onDidChangeEnablement`,
`onDidChangeAccessData`). -/
inductive Event where
  | enablementChanged (extension featureId : String) (enabled : Bool)
  | accessDataChanged (extension featureId : String) (accessData : AccessData)
deriving DecidableEq, Repr

/-- `Map.get`: first value bound to `key`. -/
def alookup {α : Type} : List (String × α) → String → Option α
  | [], _ => none
  | (k, v) :: rest, key => if k = key then some v else alookup rest key

/-- `Map.set`: update the binding in place, or append a fresh one. -/
def aset {α : Type} : List (String × α) → String → α → List (String × α)
  | [], key, v => [(key, v)]
  | (k, w) :: rest, key, v =>
      if k = key then (key, v) :: rest else (k, w) :: aset rest key v

/-- `registry.getExtensionFeature(featureId)`. -/
def getExtensionFeature (registry : List ExtensionFeature) (featureId : String) :
    Option ExtensionFeature :=
  registry.find? (fun ft => ft.id == featureId)

/-- `getExtensionFeatureState`: `this.extensionFeaturesState.get(extension.value)?.get(featureId)`. -/
def getExtensionFeatureState (st : FeaturesState) (extension featureId : String) :
    Option FeatureState :=
  (alookup st extension).bind (fun m => alookup m featureId)

/-- The record `{ accessData: { totalCount: 0 } }` lazily created for a pair. -/
def emptyFeatureState : FeatureState :=
  { disabled := none, accessData := { totalCount := 0, current := none } }

/-- `getAndSetIfNotExistsExtensionFeatureState`: returns the pair's record,
inserting a fresh `{ accessData: { totalCount: 0 } }` one if absent. -/
def getAndSetIfNotExists (st : FeaturesState) (extension featureId : String) :
    FeatureState × FeaturesState :=
  let extState := (alookup st extension).getD []
  match alookup extState featureId with
  | some fs => (fs, st)
  | none =>
      (emptyFeatureState, aset st extension (aset extState featureId emptyFeatureState))

/-- Overwrite the pair's record in the two-level map. -/
def setFeatureState (st : FeaturesState) (extension featureId : String)
    (fs : FeatureState) : FeaturesState :=
  aset st extension (aset ((alookup st extension).getD []) featureId fs)

/-- One record as `saveState` persists it:
`{ disabled: featureState.disabled, accessCount: featureState.accessData.totalCount }`. -/
def persistFeature (fs : FeatureState) : PersistedFeature :=
  { disabled := fs.disabled, accessCount := fs.accessData.totalCount }

/-- One record as `loadState` rebuilds it: only `disabled` and the lifetime
total come back, `current` does not. -/
def unpersistFeature (p : PersistedFeature) : FeatureState :=
  { disabled := p.disabled,
    accessData := { totalCount := p.accessCount, current := none } }

/-- The `saveState` serialization of the whole two-level map. -/
def serializeState (st : FeaturesState) : PersistedData :=
  st.map (fun p => (p.1, p.2.map (fun q => (q.1, persistFeature q.2))))

/-- `loadState`: rebuild the in-memory map from the persisted dictionary. -/
def loadState (d : PersistedData) : FeaturesState :=
  d.map (fun p => (p.1, p.2.map (fun q => (q.1, unpersistFeature q.2))))

/-- `saveState`: store the serialized state under the profile-scoped key. -/
def saveState (srv : Service) : Service :=
  { srv with storage := serializeState srv.state }

/-- `isEnabled(extension, featureId)`. -/
def isEnabled (srv : Service) (extension featureId : String) : Bool :=
  match getExtensionFeature srv.registry featureId with
  | none => false
  | some _ =>
      !(((getExtensionFeatureState srv.state extension featureId).bind
          FeatureState.disabled).getD false)

/-- `setEnablement(extension, featureId, enabled)`: throws on an unknown
feature; otherwise writes `disabled = !enabled`, and only when that value
actually changed fires an enablement event and persists. -/
def setEnablement (srv : Service) (extension featureId : String) (enabled : Bool) :
    Except String (Service × List Event) :=
  match getExtensionFeature srv.registry featureId with
  | none => .error ("No feature with id " ++ featureId)
  | some _ =>
      let r := getAndSetIfNotExists srv.state extension featureId
      if r.1.disabled ≠ some (!enabled) then
        let fs := { r.1 with disabled := some (!enabled) }
        .ok (saveState { srv with state := setFeatureState r.2 extension featureId fs },
             [.enablementChanged extension featureId enabled])
      else
        .ok ({ srv with state := r.2 }, [])

/-- The access bookkeeping of `getAccess` (source lines 114–119): bump the
session count (a falsy prior count restarts at 1), stamp `lastAccessed`,
keep the prior status, and increment the lifetime total. -/
def accessUpdate (fs : FeatureState) (now : Nat) : FeatureState :=
  { fs with accessData :=
    { totalCount := fs.accessData.totalCount + 1,
      current := some
        { count := match fs.accessData.current with
            | some c => if c.count = 0 then 1 else c.count + 1
            | none => 1,
          lastAccessed := now,
          status := fs.accessData.current.bind CurrentAccessData.status } } }

/-- The tail of `getAccess` once access is granted: update the record,
persist, and report the new access data for the event. -/
def recordAccess (srv : Service) (extension featureId : String) (now : Nat) :
    Service × AccessData :=
  let fs := (getExtensionFeatureState srv.state extension featureId).getD emptyFeatureState
  let fs2 := accessUpdate fs now
  (saveState { srv with state := setFeatureState srv.state extension featureId fs2 },
   fs2.accessData)

/-- `getAccess(extension, featureId)`: `confirmed` is the boolean outcome of
the confirmation dialog collaborator and `now` stands for `Date.now()`.
Returns the boolean result, the next service state, and the fired events. -/
def getAccess (srv : Service) (extension featureId : String)
    (confirmed : Bool) (now : Nat) : Bool × Service × List Event :=
  match getExtensionFeature srv.registry featureId with
  | none => (false, srv, [])
  | some _ =>
      let r := getAndSetIfNotExists srv.state extension featureId
      let srv1 : Service := { srv with state := r.2 }
      match r.1.disabled with
      | some true => (false, srv1, [])
      | some false =>
          let q := recordAccess srv1 extension featureId now
          (true, q.1, [.accessDataChanged extension featureId q.2])
      | none =>
          match setEnablement srv1 extension featureId confirmed with
          | .error _ => (false, srv1, [])
          | .ok (srv2, evs) =>
              if confirmed then
                let q := recordAccess srv2 extension featureId now
                (true, q.1, evs ++ [.accessDataChanged extension featureId q.2])
              else
                (false, srv2, evs)

/-- `getAccessData(extension, featureId)`. -/
def getAccessData (srv : Service) (extension featureId : String) : Option AccessData :=
  match getExtensionFeature srv.registry featureId with
  | none => none
  | some _ =>
      (getExtensionFeatureState srv.state extension featureId).map FeatureState.accessData

/-- The `current` rewrite performed by `setStatus`: keep `count` and
`lastAccessed` (defaulting to 0), replace `status`. -/
def statusUpdate (fs : FeatureState) (status : Option FeatureStatus) : FeatureState :=
  { fs with accessData :=
    { fs.accessData with current := some (
      { count := (fs.accessData.current.map CurrentAccessData.count).getD 0,
        lastAccessed := (fs.accessData.current.map CurrentAccessData.lastAccessed).getD 0,
        status := status }) } }

/-- `setStatus(extension, featureId, status)`: throws on an unknown feature;
otherwise rewrites `current`, fires an access-data event, and does not persist. -/
def setStatus (srv : Service) (extension featureId : String)
    (status : Option FeatureStatus) : Except String (Service × List Event) :=
  match getExtensionFeature srv.registry featureId with
  | none => .error ("No feature with id " ++ featureId)
  | some _ =>
      let r := getAndSetIfNotExists srv.state extension featureId
      let fs := statusUpdate r.1 status
      let srv2 : Service := { srv with state := setFeatureState r.2 extension featureId fs }
      .ok (srv2,
        [.accessDataChanged extension featureId
          ((getAccessData srv2 extension featureId).getD fs.accessData)])

/-- One public operation of the service, with its external inputs
(the dialog outcome and the clock) attached. -/
inductive Op where
  | isEnabledQuery (extension featureId : String)
  | accessDataQuery (extension featureId : String)
  | enablement (extension featureId : String) (enabled : Bool)
  | access (extension featureId : String) (confirmed : Bool) (now : Nat)
  | status (extension featureId : String) (status : Option FeatureStatus)

/-- Run one operation; queries leave the state alone, thrown errors leave
the service untouched. Returns the next service and the fired events. -/
def stepE (srv : Service) : Op → Service × List Event
  | .isEnabledQuery _ _ => (srv, [])
  | .accessDataQuery _ _ => (srv, [])
  | .enablement e f b =>
      match setEnablement srv e f b with
      | .ok (s, evs) => (s, evs)
      | .error _ => (srv, [])
  | .access e f c n =>
      let r := getAccess srv e f c n
      (r.2.1, r.2.2)
  | .status e f st =>
      match setStatus srv e f st with
      | .ok (s, evs) => (s, evs)
      | .error _ => (srv, [])

/-- The next service after one operation. -/
def step (srv : Service) (op : Op) : Service := (stepE srv op).1

/-- Run a sequence of operations, collecting every fired event. -/
def runE (srv : Service) : List Op → Service × List Event
  | [] => (srv, [])
  | op :: ops =>
      let r := stepE srv op
      let q := runE r.1 ops
      (q.1, r.2 ++ q.2)

/-- The service after a sequence of operations. -/
def run (srv : Service) (ops : List Op) : Service := (runE srv ops).1

/-- A freshly constructed service over a registry: empty state, empty storage. -/
def initService (registry : List ExtensionFeature) : Service :=
  { registry := registry, state := [], storage := [] }

/-- A service state produced by some operation sequence from a fresh service. -/
def Reachable (srv : Service) : Prop :=
  ∃ registry ops, run (initService registry) ops = srv

/-- Repeated `getAccess` calls on one pair, all with a confirming dialog,
at the given sequence of clock readings; collects results and events. -/
def getAccessN (srv : Service) (extension featureId : String) :
    List Nat → Service × List Bool × List Event
  | [] => (srv, [], [])
  | t :: ts =>
      let r := getAccess srv extension featureId true t
      let q := getAccessN r.2.1 extension featureId ts
      (q.1, r.1 :: q.2.1, r.2.2 ++ q.2.2)

/-- The lifetime total recorded for a pair (0 when no record exists). -/
def totalCountAt (srv : Service) (extension featureId : String) : Nat :=
  ((getExtensionFeatureState srv.state extension featureId).map
    (fun fs => fs.accessData.totalCount)).getD 0

/-- The session count recorded in some access data (0 when absent). -/
def currentCount (ad : AccessData) : Nat :=
  (ad.current.map CurrentAccessData.count).getD 0

/-- Did this operation perform a granted access (a `getAccess` call on this
pair that returns true) on the given service state? -/
def grantedAccessOp (srv : Service) (op : Op) (e f : String) : Bool :=
  match op with
  | .access e1 f1 cf n => if e1 = e ∧ f1 = f then (getAccess srv e f cf n).1 else false
  | _ => false

/-- A concrete registered feature, used to instantiate the theorems. -/
def ftW : ExtensionFeature :=
  { id := "f1", label := "Feature One", description := "A test feature" }

/-- A freshly constructed service over a one-feature registry. -/
def srvInit : Service := initService [ftW]

/-- A concrete record for an explicitly enabled pair. -/
def fsEnabled : FeatureState :=
  { disabled := some false, accessData := { totalCount := 0, current := none } }

/-- A concrete service whose pair `("e1", "f1")` is explicitly enabled. -/
def srvEnabled : Service :=
  { registry := [ftW], state := [("e1", [("f1", fsEnabled)])], storage := [] }

/-- A concrete status payload. -/
def statusW : FeatureStatus := { severity := 1, message := "ok" }

end ExtensionFeaturesManagement

namespace ExtensionFeaturesManagement

theorem alookup_aset_self {α : Type} (l : List (String × α)) (k : String) (v : α) :
    alookup (aset l k v) k = some v := by
  induction l with
  | nil => simp [aset, alookup]
  | cons p rest ih =>
    obtain ⟨k1, w⟩ := p
    by_cases h : k1 = k
    · simp [aset, h, alookup]
    · simp [aset, h, alookup, ih]

theorem alookup_aset_ne {α : Type} (l : List (String × α)) (k k' : String) (v : α)
    (h : k' ≠ k) : alookup (aset l k v) k' = alookup l k' := by
  induction l with
  | nil => simp [aset, alookup, Ne.symm h]
  | cons p rest ih =>
    obtain ⟨k1, w⟩ := p
    by_cases h1 : k1 = k
    · subst h1
      simp [aset, alookup, Ne.symm h]
    · simp only [aset, if_neg h1, alookup]
      by_cases h2 : k1 = k'
      · simp [h2]
      · simp [h2, ih]

theorem aset_aset {α : Type} (l : List (String × α)) (k : String) (v w : α) :
    aset (aset l k v) k w = aset l k w := by
  induction l with
  | nil => simp [aset]
  | cons p rest ih =>
    obtain ⟨k1, u⟩ := p
    by_cases h : k1 = k
    · simp [aset, h]
    · simp [aset, h, ih]

theorem alookup_map {α β : Type} (g : α → β) (l : List (String × α)) (k : String) :
    alookup (l.map (fun p => (p.1, g p.2))) k = (alookup l k).map g := by
  induction l with
  | nil => simp [alookup]
  | cons p rest ih =>
    obtain ⟨k1, w⟩ := p
    by_cases h : k1 = k
    · simp [alookup, h]
    · simp [alookup, h, ih]

theorem getExtensionFeatureState_set (st : FeaturesState) (e f : String)
    (fs : FeatureState) (e' f' : String) :
    getExtensionFeatureState (setFeatureState st e f fs) e' f' =
      if e' = e ∧ f' = f then some fs else getExtensionFeatureState st e' f' := by
  by_cases he : e' = e
  · subst he
    by_cases hf : f' = f
    · subst hf
      simp [getExtensionFeatureState, setFeatureState, alookup_aset_self]
    · rw [if_neg (by simp [hf])]
      simp only [getExtensionFeatureState, setFeatureState]
      rw [alookup_aset_self]
      simp only [Option.some_bind]
      rw [alookup_aset_ne _ _ _ _ hf]
      cases h : alookup st e' <;> simp [h, alookup]
  · rw [if_neg (by simp [he])]
    simp only [getExtensionFeatureState, setFeatureState]
    rw [alookup_aset_ne _ _ _ _ he]

theorem getAndSetIfNotExists_fst (st : FeaturesState) (e f : String) :
    (getAndSetIfNotExists st e f).1 =
      (getExtensionFeatureState st e f).getD emptyFeatureState := by
  unfold getAndSetIfNotExists getExtensionFeatureState
  cases h : alookup st e with
  | none => simp [alookup]
  | some m => cases h2 : alookup m f <;> simp [h2]

theorem getAndSetIfNotExists_snd_some (st : FeaturesState) (e f : String)
    (fs : FeatureState) (h : getExtensionFeatureState st e f = some fs) :
    (getAndSetIfNotExists st e f).2 = st := by
  unfold getExtensionFeatureState at h
  cases h1 : alookup st e with
  | none => rw [h1] at h; simp at h
  | some m =>
    rw [h1] at h
    simp only [Option.some_bind] at h
    unfold getAndSetIfNotExists
    rw [h1]
    simp [h]

theorem getAndSetIfNotExists_snd_none (st : FeaturesState) (e f : String)
    (h : getExtensionFeatureState st e f = none) :
    (getAndSetIfNotExists st e f).2 = setFeatureState st e f emptyFeatureState := by
  unfold getExtensionFeatureState at h
  unfold getAndSetIfNotExists setFeatureState
  cases h1 : alookup st e with
  | none => simp [alookup]
  | some m =>
    rw [h1] at h
    simp only [Option.some_bind] at h
    simp [h]

theorem getExtensionFeatureState_getAndSet_snd (st : FeaturesState) (e f e' f' : String) :
    getExtensionFeatureState (getAndSetIfNotExists st e f).2 e' f' =
      if e' = e ∧ f' = f then
        some ((getExtensionFeatureState st e f).getD emptyFeatureState)
      else getExtensionFeatureState st e' f' := by
  cases h : getExtensionFeatureState st e f with
  | none =>
    rw [getAndSetIfNotExists_snd_none _ _ _ h, getExtensionFeatureState_set]
    simp [h]
  | some fs =>
    rw [getAndSetIfNotExists_snd_some _ _ _ _ h]
    by_cases hef : e' = e ∧ f' = f
    · obtain ⟨he, hf⟩ := hef
      subst he; subst hf
      simp [h]
    · rw [if_neg hef]

theorem setFeatureState_setFeatureState (st : FeaturesState) (e f : String)
    (a b : FeatureState) :
    setFeatureState (setFeatureState st e f a) e f b = setFeatureState st e f b := by
  unfold setFeatureState
  rw [alookup_aset_self]
  simp only [Option.getD_some]
  rw [aset_aset, aset_aset]

theorem setFeatureState_getAndSet_snd (st : FeaturesState) (e f : String)
    (x : FeatureState) :
    setFeatureState (getAndSetIfNotExists st e f).2 e f x = setFeatureState st e f x := by
  cases h : getExtensionFeatureState st e f with
  | none => rw [getAndSetIfNotExists_snd_none _ _ _ h, setFeatureState_setFeatureState]
  | some fs => rw [getAndSetIfNotExists_snd_some _ _ _ _ h]

end ExtensionFeaturesManagement

namespace ExtensionFeaturesManagement

theorem getAndSetIfNotExists_eq_some (st : FeaturesState) (e f : String)
    (fs : FeatureState) (h : getExtensionFeatureState st e f = some fs) :
    getAndSetIfNotExists st e f = (fs, st) := by
  have h1 := getAndSetIfNotExists_fst st e f
  rw [h] at h1
  simp only [Option.getD_some] at h1
  have h2 := getAndSetIfNotExists_snd_some st e f fs h
  have h3 : getAndSetIfNotExists st e f =
      ((getAndSetIfNotExists st e f).1, (getAndSetIfNotExists st e f).2) := rfl
  rw [h3, h1, h2]

theorem getAndSetIfNotExists_eq_none (st : FeaturesState) (e f : String)
    (h : getExtensionFeatureState st e f = none) :
    getAndSetIfNotExists st e f = (emptyFeatureState, setFeatureState st e f emptyFeatureState) := by
  have h1 := getAndSetIfNotExists_fst st e f
  rw [h] at h1
  simp only [Option.getD_none] at h1
  have h2 := getAndSetIfNotExists_snd_none st e f h
  have h3 : getAndSetIfNotExists st e f =
      ((getAndSetIfNotExists st e f).1, (getAndSetIfNotExists st e f).2) := rfl
  rw [h3, h1, h2]

theorem setEnablement_unregistered (srv : Service) (e f : String) (b : Bool)
    (hreg : getExtensionFeature srv.registry f = none) :
    setEnablement srv e f b = .error ("No feature with id " ++ f) := by
  simp [setEnablement, hreg]

theorem setStatus_unregistered (srv : Service) (e f : String) (status : Option FeatureStatus)
    (hreg : getExtensionFeature srv.registry f = none) :
    setStatus srv e f status = .error ("No feature with id " ++ f) := by
  simp [setStatus, hreg]

theorem getAccess_unregistered (srv : Service) (e f : String) (c : Bool) (n : Nat)
    (hreg : getExtensionFeature srv.registry f = none) :
    getAccess srv e f c n = (false, srv, []) := by
  simp [getAccess, hreg]

theorem isEnabled_unregistered (srv : Service) (e f : String)
    (hreg : getExtensionFeature srv.registry f = none) :
    isEnabled srv e f = false := by
  simp [isEnabled, hreg]

theorem getAccessData_unregistered (srv : Service) (e f : String)
    (hreg : getExtensionFeature srv.registry f = none) :
    getAccessData srv e f = none := by
  simp [getAccessData, hreg]

theorem setEnablement_noop (srv : Service) (e f : String) (ft : ExtensionFeature) (b : Bool)
    (hreg : getExtensionFeature srv.registry f = some ft)
    (h : ((getExtensionFeatureState srv.state e f).getD emptyFeatureState).disabled
      = some (!b)) :
    setEnablement srv e f b = .ok (srv, []) := by
  cases hsf : getExtensionFeatureState srv.state e f with
  | none => rw [hsf] at h; simp [emptyFeatureState] at h
  | some fs =>
    rw [hsf] at h
    simp only [Option.getD_some] at h
    simp [setEnablement, hreg, getAndSetIfNotExists_eq_some _ _ _ _ hsf, h]

theorem setEnablement_change (srv : Service) (e f : String) (ft : ExtensionFeature) (b : Bool)
    (hreg : getExtensionFeature srv.registry f = some ft)
    (h : ((getExtensionFeatureState srv.state e f).getD emptyFeatureState).disabled
      ≠ some (!b)) :
    setEnablement srv e f b =
      .ok (saveState { srv with state := (setFeatureState srv.state e f
            ({ (getExtensionFeatureState srv.state e f).getD emptyFeatureState with
               disabled := some (!b) })) },
           [Event.enablementChanged e f b]) := by
  cases hsf : getExtensionFeatureState srv.state e f with
  | none =>
    rw [hsf] at h
    simp only [Option.getD_none] at h ⊢
    simp only [setEnablement, hreg, getAndSetIfNotExists_eq_none _ _ _ hsf]
    rw [if_pos h]
    rw [setFeatureState_setFeatureState]
  | some fs =>
    rw [hsf] at h
    simp only [Option.getD_some] at h ⊢
    simp only [setEnablement, hreg, getAndSetIfNotExists_eq_some _ _ _ _ hsf]
    rw [if_pos h]

theorem setStatus_spec (srv : Service) (e f : String) (ft : ExtensionFeature)
    (status : Option FeatureStatus)
    (hreg : getExtensionFeature srv.registry f = some ft) :
    setStatus srv e f status =
      .ok ({ srv with state := (setFeatureState srv.state e f
              (statusUpdate ((getExtensionFeatureState srv.state e f).getD emptyFeatureState)
                status)) },
           [Event.accessDataChanged e f
              (statusUpdate ((getExtensionFeatureState srv.state e f).getD emptyFeatureState)
                status).accessData]) := by
  cases hsf : getExtensionFeatureState srv.state e f with
  | none =>
    simp only [Option.getD_none]
    simp only [setStatus, hreg, getAndSetIfNotExists_eq_none _ _ _ hsf]
    rw [setFeatureState_setFeatureState]
    simp [getAccessData, hreg, getExtensionFeatureState_set]
  | some fs =>
    simp only [Option.getD_some]
    simp only [setStatus, hreg, getAndSetIfNotExists_eq_some _ _ _ _ hsf]
    simp [getAccessData, hreg, getExtensionFeatureState_set]

end ExtensionFeaturesManagement

namespace ExtensionFeaturesManagement

theorem getAccess_disabledTrue (srv : Service) (e f : String) (ft : ExtensionFeature)
    (fs : FeatureState) (c : Bool) (n : Nat)
    (hreg : getExtensionFeature srv.registry f = some ft)
    (hsf : getExtensionFeatureState srv.state e f = some fs)
    (hd : fs.disabled = some true) :
    getAccess srv e f c n = (false, srv, []) := by
  simp [getAccess, hreg, getAndSetIfNotExists_eq_some _ _ _ _ hsf, hd]

theorem getAccess_enabled (srv : Service) (e f : String) (ft : ExtensionFeature)
    (fs : FeatureState) (c : Bool) (n : Nat)
    (hreg : getExtensionFeature srv.registry f = some ft)
    (hsf : getExtensionFeatureState srv.state e f = some fs)
    (hd : fs.disabled = some false) :
    getAccess srv e f c n =
      (true,
       saveState { srv with state := (setFeatureState srv.state e f (accessUpdate fs n)) },
       [Event.accessDataChanged e f (accessUpdate fs n).accessData]) := by
  simp [getAccess, hreg, getAndSetIfNotExists_eq_some _ _ _ _ hsf, hd, recordAccess, hsf]

theorem getAccess_undecided_allow (srv : Service) (e f : String) (ft : ExtensionFeature)
    (n : Nat)
    (hreg : getExtensionFeature srv.registry f = some ft)
    (hund : (getExtensionFeatureState srv.state e f).bind FeatureState.disabled = none) :
    getAccess srv e f true n =
      (true,
       saveState { srv with state := (setFeatureState srv.state e f
         (accessUpdate ({ (getExtensionFeatureState srv.state e f).getD emptyFeatureState with
                          disabled := some false }) n)) },
       [Event.enablementChanged e f true,
        Event.accessDataChanged e f
          (accessUpdate ({ (getExtensionFeatureState srv.state e f).getD emptyFeatureState with
                           disabled := some false }) n).accessData]) := by
  cases hsf : getExtensionFeatureState srv.state e f with
  | none =>
    have hset : getExtensionFeatureState (setFeatureState srv.state e f emptyFeatureState) e f
        = some emptyFeatureState := by
      rw [getExtensionFeatureState_set]; simp
    have hd0 : emptyFeatureState.disabled = none := rfl
    simp only [Option.getD_none]
    simp [getAccess, hreg, getAndSetIfNotExists_eq_none _ _ _ hsf, hd0,
      setEnablement, getAndSetIfNotExists_eq_some _ _ _ _ hset,
      setFeatureState_setFeatureState, recordAccess, getExtensionFeatureState_set,
      saveState]
  | some fs =>
    have hd : fs.disabled = none := by
      rw [hsf] at hund
      simpa using hund
    simp only [Option.getD_some]
    simp [getAccess, hreg, getAndSetIfNotExists_eq_some _ _ _ _ hsf, hd,
      setEnablement, setFeatureState_setFeatureState, recordAccess,
      getExtensionFeatureState_set, saveState]

theorem getAccess_undecided_deny (srv : Service) (e f : String) (ft : ExtensionFeature)
    (n : Nat)
    (hreg : getExtensionFeature srv.registry f = some ft)
    (hund : (getExtensionFeatureState srv.state e f).bind FeatureState.disabled = none) :
    getAccess srv e f false n =
      (false,
       saveState { srv with state := (setFeatureState srv.state e f
         ({ (getExtensionFeatureState srv.state e f).getD emptyFeatureState with
            disabled := some true })) },
       [Event.enablementChanged e f false]) := by
  cases hsf : getExtensionFeatureState srv.state e f with
  | none =>
    have hset : getExtensionFeatureState (setFeatureState srv.state e f emptyFeatureState) e f
        = some emptyFeatureState := by
      rw [getExtensionFeatureState_set]; simp
    have hd0 : emptyFeatureState.disabled = none := rfl
    simp only [Option.getD_none]
    simp [getAccess, hreg, getAndSetIfNotExists_eq_none _ _ _ hsf, hd0,
      setEnablement, getAndSetIfNotExists_eq_some _ _ _ _ hset,
      setFeatureState_setFeatureState, saveState]
  | some fs =>
    have hd : fs.disabled = none := by
      rw [hsf] at hund
      simpa using hund
    simp only [Option.getD_some]
    simp [getAccess, hreg, getAndSetIfNotExists_eq_some _ _ _ _ hsf, hd,
      setEnablement, setFeatureState_setFeatureState, saveState]

end ExtensionFeaturesManagement

namespace ExtensionFeaturesManagement

/-- Invariant of the service's own operation: a pair whose `disabled` flag is
still absent (never decided) has no recorded lifetime accesses and a zero
session count. -/
def FreshInv (st : FeaturesState) : Prop :=
  ∀ e f fs, getExtensionFeatureState st e f = some fs → fs.disabled = none →
    fs.accessData.totalCount = 0 ∧
    ∀ c, fs.accessData.current = some c → c.count = 0

theorem freshInv_setFeatureState (st : FeaturesState) (e f : String) (fs' : FeatureState)
    (h : FreshInv st)
    (h2 : fs'.disabled = none → fs'.accessData.totalCount = 0 ∧
      ∀ c, fs'.accessData.current = some c → c.count = 0) :
    FreshInv (setFeatureState st e f fs') := by
  intro e' f' fs hlook hd
  rw [getExtensionFeatureState_set] at hlook
  by_cases hef : e' = e ∧ f' = f
  · rw [if_pos hef] at hlook
    injection hlook with hh
    subst hh
    exact h2 hd
  · rw [if_neg hef] at hlook
    exact h e' f' fs hlook hd

theorem freshInv_step (srv : Service) (op : Op) (h : FreshInv srv.state) :
    FreshInv (step srv op).state := by
  cases op with
  | isEnabledQuery e f => exact h
  | accessDataQuery e f => exact h
  | enablement e f b =>
    cases hreg : getExtensionFeature srv.registry f with
    | none => simpa [step, stepE, setEnablement_unregistered _ _ _ _ hreg] using h
    | some ft =>
      by_cases hch : ((getExtensionFeatureState srv.state e f).getD emptyFeatureState).disabled
          = some (!b)
      · simpa [step, stepE, setEnablement_noop _ _ _ _ _ hreg hch] using h
      · simp only [step, stepE, setEnablement_change _ _ _ _ _ hreg hch, saveState]
        exact freshInv_setFeatureState _ _ _ _ h (by intro hdis; simp at hdis)
  | status e f st =>
    cases hreg : getExtensionFeature srv.registry f with
    | none => simpa [step, stepE, setStatus_unregistered _ _ _ _ hreg] using h
    | some ft =>
      simp only [step, stepE, setStatus_spec _ _ _ _ _ hreg]
      apply freshInv_setFeatureState _ _ _ _ h
      intro hdis
      cases hsf : getExtensionFeatureState srv.state e f with
      | none => simp [statusUpdate, emptyFeatureState]
      | some fs =>
        rw [hsf] at hdis
        simp only [Option.getD_some, statusUpdate] at hdis ⊢
        obtain ⟨ht, hc⟩ := h e f fs hsf hdis
        refine ⟨ht, ?_⟩
        intro c hcc
        injection hcc with hh
        subst hh
        cases hcur : fs.accessData.current with
        | none => simp [hcur]
        | some c0 => simp [hcur, hc c0 hcur]
  | access e f c n =>
    cases hreg : getExtensionFeature srv.registry f with
    | none => simpa [step, stepE, getAccess_unregistered _ _ _ _ _ hreg] using h
    | some ft =>
      cases hsf : getExtensionFeatureState srv.state e f with
      | some fs =>
        cases hd : fs.disabled with
        | some bb =>
          cases bb with
          | true => simpa [step, stepE, getAccess_disabledTrue _ _ _ _ _ _ _ hreg hsf hd] using h
          | false =>
            simp only [step, stepE, getAccess_enabled _ _ _ _ _ _ _ hreg hsf hd, saveState]
            apply freshInv_setFeatureState _ _ _ _ h
            intro hdis
            simp [accessUpdate, hd] at hdis
        | none =>
          have hund : (getExtensionFeatureState srv.state e f).bind FeatureState.disabled
              = none := by rw [hsf]; simpa using hd
          cases c with
          | true =>
            simp only [step, stepE, getAccess_undecided_allow _ _ _ _ _ hreg hund, saveState]
            apply freshInv_setFeatureState _ _ _ _ h
            intro hdis
            simp [accessUpdate] at hdis
          | false =>
            simp only [step, stepE, getAccess_undecided_deny _ _ _ _ _ hreg hund, saveState]
            apply freshInv_setFeatureState _ _ _ _ h
            intro hdis
            simp at hdis
      | none =>
        have hund : (getExtensionFeatureState srv.state e f).bind FeatureState.disabled
            = none := by rw [hsf]; rfl
        cases c with
        | true =>
          simp only [step, stepE, getAccess_undecided_allow _ _ _ _ _ hreg hund, saveState]
          apply freshInv_setFeatureState _ _ _ _ h
          intro hdis
          simp [accessUpdate] at hdis
        | false =>
          simp only [step, stepE, getAccess_undecided_deny _ _ _ _ _ hreg hund, saveState]
          apply freshInv_setFeatureState _ _ _ _ h
          intro hdis
          simp at hdis

theorem freshInv_run (srv : Service) (ops : List Op) (h : FreshInv srv.state) :
    FreshInv (run srv ops).state := by
  induction ops generalizing srv with
  | nil => exact h
  | cons op ops ih =>
    have hr : run srv (op :: ops) = run (step srv op) ops := rfl
    rw [hr]
    exact ih _ (freshInv_step srv op h)

theorem reachable_freshInv (srv : Service) (h : Reachable srv) : FreshInv srv.state := by
  obtain ⟨reg, ops, rfl⟩ := h
  apply freshInv_run
  intro e f fs hlook hd
  simp [getExtensionFeatureState, alookup, initService] at hlook

end ExtensionFeaturesManagement

namespace ExtensionFeaturesManagement

theorem gEFS_load_serialize (st : FeaturesState) (e f : String) :
    getExtensionFeatureState (loadState (serializeState st)) e f =
      (getExtensionFeatureState st e f).map (fun fs =>
        { disabled := fs.disabled,
          accessData := { totalCount := fs.accessData.totalCount, current := none } }) := by
  have hL : alookup (loadState (serializeState st)) e
      = (alookup (serializeState st) e).map
          (fun l => l.map (fun q => (q.1, unpersistFeature q.2))) :=
    alookup_map _ _ e
  have hS : alookup (serializeState st) e
      = (alookup st e).map (fun l => l.map (fun q => (q.1, persistFeature q.2))) :=
    alookup_map _ _ e
  unfold getExtensionFeatureState
  rw [hL, hS]
  cases h : alookup st e with
  | none => simp
  | some m =>
    simp only [Option.map_some', Option.some_bind]
    have h2 : alookup (m.map (fun q => (q.1, persistFeature q.2))) f
        = (alookup m f).map persistFeature := alookup_map _ _ f
    have h3 : ∀ mm : List (String × PersistedFeature),
        alookup (mm.map (fun q => (q.1, unpersistFeature q.2))) f
          = (alookup mm f).map unpersistFeature := fun mm => alookup_map _ _ f
    rw [h3, h2, Option.map_map]
    cases h4 : alookup m f <;> simp [Function.comp_def, persistFeature, unpersistFeature]

/-- C5: saving the state and reconstructing the in-memory map from that same
persisted value reproduces `isEnabled` and `getAccessData().totalCount`
exactly, and the `current` session fields come back absent. -/
theorem C5_persistence_roundtrip (srv : Service) (e f : String) :
    isEnabled { srv with state := loadState (saveState srv).storage } e f
      = isEnabled srv e f ∧
    (getAccessData { srv with state := loadState (saveState srv).storage } e f).map
        AccessData.totalCount
      = (getAccessData srv e f).map AccessData.totalCount ∧
    ∀ ad, getAccessData { srv with state := loadState (saveState srv).storage } e f = some ad →
      ad.current = none := by
  have hload := gEFS_load_serialize srv.state e f
  have hdata : getAccessData { srv with state := loadState (saveState srv).storage } e f
      = (getAccessData srv e f).map
          (fun ad => { totalCount := ad.totalCount, current := none }) := by
    cases hreg : getExtensionFeature srv.registry f with
    | none => simp [getAccessData, hreg]
    | some ft =>
      simp only [getAccessData, hreg, saveState]
      rw [hload, Option.map_map, Option.map_map]
      rfl
  refine ⟨?_, ?_, ?_⟩
  · cases hreg : getExtensionFeature srv.registry f with
    | none => simp [isEnabled, hreg]
    | some ft =>
      simp only [isEnabled, hreg, saveState]
      rw [hload]
      cases hsf : getExtensionFeatureState srv.state e f <;> simp
  · rw [hdata, Option.map_map]
    cases hd : getAccessData srv e f <;> simp
  · intro ad had
    rw [hdata] at had
    cases hd : getAccessData srv e f with
    | none => rw [hd] at had; simp at had
    | some ad0 =>
      rw [hd] at had
      simp only [Option.map_some'] at had
      injection had with hh
      subst hh
      rfl

/-- C5 witness: the round-trip theorem applied to a concrete service. -/
theorem C5_witness :
    isEnabled { srvEnabled with state := loadState (saveState srvEnabled).storage } "e1" "f1"
      = isEnabled srvEnabled "e1" "f1" ∧
    (getAccessData { srvEnabled with state := loadState (saveState srvEnabled).storage }
        "e1" "f1").map AccessData.totalCount
      = (getAccessData srvEnabled "e1" "f1").map AccessData.totalCount ∧
    ∀ ad, getAccessData { srvEnabled with state := loadState (saveState srvEnabled).storage }
        "e1" "f1" = some ad → ad.current = none :=
  C5_persistence_roundtrip srvEnabled "e1" "f1"

/-- C7: for an unregistered feature id the read paths return their fixed
defaults and `getAccess` leaves the service (state and storage) untouched
with no events, so no state record is created. -/
theorem C7_unregistered_reads (srv : Service) (e f : String) (c : Bool) (n : Nat)
    (hreg : getExtensionFeature srv.registry f = none) :
    isEnabled srv e f = false ∧ getAccessData srv e f = none ∧
    getAccess srv e f c n = (false, srv, []) :=
  ⟨isEnabled_unregistered srv e f hreg, getAccessData_unregistered srv e f hreg,
   getAccess_unregistered srv e f c n hreg⟩

/-- C7 witness: the unregistered-feature read theorem at a concrete input. -/
theorem C7_witness :
    isEnabled srvInit "e1" "nope" = false ∧ getAccessData srvInit "e1" "nope" = none ∧
    getAccess srvInit "e1" "nope" true 7 = (false, srvInit, []) :=
  C7_unregistered_reads srvInit "e1" "nope" true 7 (by decide)

/-- C8: for an unregistered feature id the write paths `setEnablement` and
`setStatus` fail with the "unknown feature" error; run as operations they
leave the service unchanged and fire no events. -/
theorem C8_unregistered_writes (srv : Service) (e f : String) (b : Bool)
    (status : Option FeatureStatus)
    (hreg : getExtensionFeature srv.registry f = none) :
    setEnablement srv e f b = Except.error ("No feature with id " ++ f) ∧
    setStatus srv e f status = Except.error ("No feature with id " ++ f) ∧
    stepE srv (Op.enablement e f b) = (srv, []) ∧
    stepE srv (Op.status e f status) = (srv, []) := by
  have h1 := setEnablement_unregistered srv e f b hreg
  have h2 := setStatus_unregistered srv e f status hreg
  exact ⟨h1, h2, by simp [stepE, h1], by simp [stepE, h2]⟩

/-- C8 witness: the unregistered-feature write theorem at a concrete input. -/
theorem C8_witness :
    setEnablement srvInit "e1" "nope" false = Except.error ("No feature with id " ++ "nope") ∧
    setStatus srvInit "e1" "nope" (some statusW)
      = Except.error ("No feature with id " ++ "nope") ∧
    stepE srvInit (Op.enablement "e1" "nope" false) = (srvInit, []) ∧
    stepE srvInit (Op.status "e1" "nope" (some statusW)) = (srvInit, []) :=
  C8_unregistered_writes srvInit "e1" "nope" false (some statusW) (by decide)

end ExtensionFeaturesManagement

namespace ExtensionFeaturesManagement

/-- C6: `setStatus` on a registered feature only rewrites `current.status`:
`count` and `lastAccessed` keep their prior values (defaulting to 0 when
absent), the `disabled` flag and the lifetime total are untouched, exactly
one access-data-changed event fires, storage is not written, and no other
pair's record changes. -/
theorem C6_setStatus_frame (srv : Service) (e f : String) (ft : ExtensionFeature)
    (status : Option FeatureStatus)
    (hreg : getExtensionFeature srv.registry f = some ft) :
    ∃ srv1 ad, setStatus srv e f status = Except.ok (srv1, [Event.accessDataChanged e f ad]) ∧
      srv1.storage = srv.storage ∧
      srv1.registry = srv.registry ∧
      (∃ fs1, getExtensionFeatureState srv1.state e f = some fs1 ∧
        fs1.disabled = (getExtensionFeatureState srv.state e f).bind FeatureState.disabled ∧
        fs1.accessData.totalCount = totalCountAt srv e f ∧
        ∃ cc, fs1.accessData.current = some cc ∧
          cc.count = (((getExtensionFeatureState srv.state e f).bind
            (fun x => x.accessData.current)).map CurrentAccessData.count).getD 0 ∧
          cc.lastAccessed = (((getExtensionFeatureState srv.state e f).bind
            (fun x => x.accessData.current)).map CurrentAccessData.lastAccessed).getD 0 ∧
          cc.status = status) ∧
      ∀ e' f', ¬(e' = e ∧ f' = f) →
        getExtensionFeatureState srv1.state e' f' = getExtensionFeatureState srv.state e' f' := by
  rw [setStatus_spec _ _ _ _ _ hreg]
  refine ⟨_, _, rfl, rfl, rfl, ?_, ?_⟩
  · refine ⟨statusUpdate ((getExtensionFeatureState srv.state e f).getD emptyFeatureState)
      status, ?_, ?_, ?_, ?_⟩
    · simp [getExtensionFeatureState_set]
    · cases hsf : getExtensionFeatureState srv.state e f <;>
        simp [hsf, statusUpdate, emptyFeatureState]
    · cases hsf : getExtensionFeatureState srv.state e f <;>
        simp [hsf, statusUpdate, emptyFeatureState, totalCountAt]
    · refine ⟨_, rfl, ?_, ?_, rfl⟩
      · cases hsf : getExtensionFeatureState srv.state e f <;>
          simp [hsf, emptyFeatureState]
      · cases hsf : getExtensionFeatureState srv.state e f <;>
          simp [hsf, emptyFeatureState]
  · intro e' f' hne
    have := getExtensionFeatureState_set srv.state e f
      (statusUpdate ((getExtensionFeatureState srv.state e f).getD emptyFeatureState) status)
      e' f'
    rw [if_neg hne] at this
    exact this

/-- C6 witness: the `setStatus` frame theorem at a concrete input. -/
theorem C6_witness :
    ∃ srv1 ad, setStatus srvEnabled "e1" "f1" (some statusW)
        = Except.ok (srv1, [Event.accessDataChanged "e1" "f1" ad]) ∧
      srv1.storage = srvEnabled.storage ∧
      srv1.registry = srvEnabled.registry ∧
      (∃ fs1, getExtensionFeatureState srv1.state "e1" "f1" = some fs1 ∧
        fs1.disabled
          = (getExtensionFeatureState srvEnabled.state "e1" "f1").bind FeatureState.disabled ∧
        fs1.accessData.totalCount = totalCountAt srvEnabled "e1" "f1" ∧
        ∃ cc, fs1.accessData.current = some cc ∧
          cc.count = (((getExtensionFeatureState srvEnabled.state "e1" "f1").bind
            (fun x => x.accessData.current)).map CurrentAccessData.count).getD 0 ∧
          cc.lastAccessed = (((getExtensionFeatureState srvEnabled.state "e1" "f1").bind
            (fun x => x.accessData.current)).map CurrentAccessData.lastAccessed).getD 0 ∧
          cc.status = some statusW) ∧
      ∀ e' f', ¬(e' = "e1" ∧ f' = "f1") →
        getExtensionFeatureState srv1.state e' f'
          = getExtensionFeatureState srvEnabled.state e' f' :=
  C6_setStatus_frame srvEnabled "e1" "f1" ftW (some statusW) (by decide)

/-- C1: on a reachable service, a registered pair whose `disabled` flag was
never decided, queried through `getAccess` with a confirming dialog, yields
true; afterwards `isEnabled` is true and the pair's access data reads
`totalCount = 1`, `current.count = 1`, `current.lastAccessed = now`. -/
theorem C1_getAccess_allow (srv : Service) (e f : String) (ft : ExtensionFeature) (now : Nat)
    (hreach : Reachable srv)
    (hreg : getExtensionFeature srv.registry f = some ft)
    (hund : (getExtensionFeatureState srv.state e f).bind FeatureState.disabled = none) :
    (getAccess srv e f true now).1 = true ∧
    isEnabled (getAccess srv e f true now).2.1 e f = true ∧
    ∃ ad, getAccessData (getAccess srv e f true now).2.1 e f = some ad ∧
      ad.totalCount = 1 ∧
      ∃ c, ad.current = some c ∧ c.count = 1 ∧ c.lastAccessed = now := by
  have hinv := reachable_freshInv srv hreach
  cases hsf : getExtensionFeatureState srv.state e f with
  | none =>
    rw [getAccess_undecided_allow _ _ _ _ _ hreg hund, hsf]
    simp [isEnabled, getAccessData, hreg, saveState, getExtensionFeatureState_set,
      accessUpdate, emptyFeatureState]
  | some fs =>
    have hd : fs.disabled = none := by rw [hsf] at hund; simpa using hund
    obtain ⟨htc, hcc⟩ := hinv e f fs hsf hd
    rw [getAccess_undecided_allow _ _ _ _ _ hreg hund, hsf]
    cases hcur : fs.accessData.current with
    | none =>
      simp [isEnabled, getAccessData, hreg, saveState, getExtensionFeatureState_set,
        accessUpdate, htc, hcur]
    | some c0 =>
      have hc0 : c0.count = 0 := hcc c0 hcur
      simp [isEnabled, getAccessData, hreg, saveState, getExtensionFeatureState_set,
        accessUpdate, htc, hcur, hc0]

/-- C1 witness: the allow theorem applied to a fresh service. -/
theorem C1_witness :
    (getAccess srvInit "e1" "f1" true 42).1 = true ∧
    isEnabled (getAccess srvInit "e1" "f1" true 42).2.1 "e1" "f1" = true ∧
    ∃ ad, getAccessData (getAccess srvInit "e1" "f1" true 42).2.1 "e1" "f1" = some ad ∧
      ad.totalCount = 1 ∧
      ∃ c, ad.current = some c ∧ c.count = 1 ∧ c.lastAccessed = 42 :=
  C1_getAccess_allow srvInit "e1" "f1" ftW 42 ⟨[ftW], [], rfl⟩ (by decide) (by decide)

/-- C2: on a reachable service, a registered pair whose `disabled` flag was
never decided, queried through `getAccess` with a denying dialog, yields
false; afterwards `isEnabled` is false and no access is recorded, the
lifetime total staying 0. -/
theorem C2_getAccess_deny (srv : Service) (e f : String) (ft : ExtensionFeature) (now : Nat)
    (hreach : Reachable srv)
    (hreg : getExtensionFeature srv.registry f = some ft)
    (hund : (getExtensionFeatureState srv.state e f).bind FeatureState.disabled = none) :
    (getAccess srv e f false now).1 = false ∧
    isEnabled (getAccess srv e f false now).2.1 e f = false ∧
    ∃ ad, getAccessData (getAccess srv e f false now).2.1 e f = some ad ∧
      ad.totalCount = 0 := by
  have hinv := reachable_freshInv srv hreach
  cases hsf : getExtensionFeatureState srv.state e f with
  | none =>
    rw [getAccess_undecided_deny _ _ _ _ _ hreg hund, hsf]
    simp [isEnabled, getAccessData, hreg, saveState, getExtensionFeatureState_set,
      emptyFeatureState]
  | some fs =>
    have hd : fs.disabled = none := by rw [hsf] at hund; simpa using hund
    obtain ⟨htc, hcc⟩ := hinv e f fs hsf hd
    rw [getAccess_undecided_deny _ _ _ _ _ hreg hund, hsf]
    simp [isEnabled, getAccessData, hreg, saveState, getExtensionFeatureState_set, htc]

/-- C2 witness: the deny theorem applied to a fresh service. -/
theorem C2_witness :
    (getAccess srvInit "e1" "f1" false 42).1 = false ∧
    isEnabled (getAccess srvInit "e1" "f1" false 42).2.1 "e1" "f1" = false ∧
    ∃ ad, getAccessData (getAccess srvInit "e1" "f1" false 42).2.1 "e1" "f1" = some ad ∧
      ad.totalCount = 0 :=
  C2_getAccess_deny srvInit "e1" "f1" ftW 42 ⟨[ftW], [], rfl⟩ (by decide) (by decide)

end ExtensionFeaturesManagement

namespace ExtensionFeaturesManagement

theorem setEnablement_change_full (srv : Service) (e f : String) (ft : ExtensionFeature)
    (b : Bool)
    (hreg : getExtensionFeature srv.registry f = some ft)
    (hch : ((getExtensionFeatureState srv.state e f).getD emptyFeatureState).disabled
      ≠ some (!b)) :
    ∃ S, setEnablement srv e f b = Except.ok (S, [Event.enablementChanged e f b]) ∧
      S.registry = srv.registry ∧
      S.storage = serializeState S.state ∧
      getExtensionFeatureState S.state e f
        = some ({ (getExtensionFeatureState srv.state e f).getD emptyFeatureState with
                  disabled := some (!b) }) ∧
      ∀ e' f', ¬(e' = e ∧ f' = f) →
        getExtensionFeatureState S.state e' f' = getExtensionFeatureState srv.state e' f' := by
  rw [setEnablement_change _ _ _ _ _ hreg hch]
  refine ⟨_, rfl, rfl, rfl, ?_, ?_⟩
  · show getExtensionFeatureState (setFeatureState srv.state e f _) e f = _
    rw [getExtensionFeatureState_set]
    simp
  · intro e' f' hne
    show getExtensionFeatureState (setFeatureState srv.state e f _) e' f' = _
    rw [getExtensionFeatureState_set, if_neg hne]

/-- C4: `setEnablement` fires one enablement event and persists exactly when
the stored `disabled` value actually changed (and is a complete no-op
otherwise); disabling then enabling a pair leaves it enabled with exactly
two events fired, while repeating the same value fires only once. -/
theorem C4_setEnablement_events (srv : Service) (e f : String) (ft : ExtensionFeature)
    (hreg : getExtensionFeature srv.registry f = some ft) :
    (∀ b, ((getExtensionFeatureState srv.state e f).getD emptyFeatureState).disabled
        ≠ some (!b) →
      ∃ srv1, setEnablement srv e f b = Except.ok (srv1, [Event.enablementChanged e f b]) ∧
        srv1.storage = serializeState srv1.state) ∧
    (∀ b, ((getExtensionFeatureState srv.state e f).getD emptyFeatureState).disabled
        = some (!b) →
      setEnablement srv e f b = Except.ok (srv, [])) ∧
    (((getExtensionFeatureState srv.state e f).getD emptyFeatureState).disabled ≠ some true →
      isEnabled (runE srv [Op.enablement e f false, Op.enablement e f true]).1 e f = true ∧
      (runE srv [Op.enablement e f false, Op.enablement e f true]).2.length = 2) ∧
    (∀ b, ((getExtensionFeatureState srv.state e f).getD emptyFeatureState).disabled
        ≠ some (!b) →
      (runE srv [Op.enablement e f b, Op.enablement e f b]).2.length = 1) := by
  refine ⟨?_, ?_, ?_, ?_⟩
  · intro b hch
    obtain ⟨S, hS, _, hst, _, _⟩ := setEnablement_change_full srv e f ft b hreg hch
    exact ⟨S, hS, hst⟩
  · intro b heq
    exact setEnablement_noop srv e f ft b hreg heq
  · intro h3
    obtain ⟨S1, hS1, hreg1, _, hlook1, _⟩ :=
      setEnablement_change_full srv e f ft false hreg h3
    have hregS1 : getExtensionFeature S1.registry f = some ft := by rw [hreg1]; exact hreg
    obtain ⟨S2, hS2, hreg2, _, hlook2, _⟩ :=
      setEnablement_change_full S1 e f ft true hregS1 (by rw [hlook1]; simp)
    have hregS2 : getExtensionFeature S2.registry f = some ft := by rw [hreg2]; exact hregS1
    have hrunE : runE srv [Op.enablement e f false, Op.enablement e f true]
        = (S2, [Event.enablementChanged e f false]
            ++ ([Event.enablementChanged e f true] ++ [])) := by
      simp [runE, stepE, hS1, hS2]
    rw [hrunE]
    constructor
    · simp [isEnabled, hregS2, hlook2]
    · simp
  · intro b hch
    obtain ⟨S1, hS1, hreg1, _, hlook1, _⟩ := setEnablement_change_full srv e f ft b hreg hch
    have hregS1 : getExtensionFeature S1.registry f = some ft := by rw [hreg1]; exact hreg
    have hnoop := setEnablement_noop S1 e f ft b hregS1 (by rw [hlook1]; rfl)
    have hrunE : runE srv [Op.enablement e f b, Op.enablement e f b]
        = (S1, [Event.enablementChanged e f b] ++ ([] ++ [])) := by
      simp [runE, stepE, hS1, hnoop]
    rw [hrunE]
    simp

/-- C4 witness: the enablement-event theorem applied to a fresh service. -/
theorem C4_witness :
    (∀ b, ((getExtensionFeatureState srvInit.state "e1" "f1").getD
        emptyFeatureState).disabled ≠ some (!b) →
      ∃ srv1, setEnablement srvInit "e1" "f1" b
          = Except.ok (srv1, [Event.enablementChanged "e1" "f1" b]) ∧
        srv1.storage = serializeState srv1.state) ∧
    (∀ b, ((getExtensionFeatureState srvInit.state "e1" "f1").getD
        emptyFeatureState).disabled = some (!b) →
      setEnablement srvInit "e1" "f1" b = Except.ok (srvInit, [])) ∧
    (((getExtensionFeatureState srvInit.state "e1" "f1").getD
        emptyFeatureState).disabled ≠ some true →
      isEnabled (runE srvInit
          [Op.enablement "e1" "f1" false, Op.enablement "e1" "f1" true]).1 "e1" "f1" = true ∧
      (runE srvInit
          [Op.enablement "e1" "f1" false, Op.enablement "e1" "f1" true]).2.length = 2) ∧
    (∀ b, ((getExtensionFeatureState srvInit.state "e1" "f1").getD
        emptyFeatureState).disabled ≠ some (!b) →
      (runE srvInit [Op.enablement "e1" "f1" b, Op.enablement "e1" "f1" b]).2.length = 1) :=
  C4_setEnablement_events srvInit "e1" "f1" ftW (by decide)

end ExtensionFeaturesManagement

namespace ExtensionFeaturesManagement

theorem getLastD_cons_eq (t : Nat) (l : List Nat) (d : Nat) :
    (t :: l).getLastD d = l.getLastD t := by
  cases l with
  | nil => rfl
  | cons b m => simp [List.getLastD]

theorem getAccessN_enabled_pos (srv : Service) (e f : String) (ft : ExtensionFeature)
    (fs : FeatureState) (c1 : CurrentAccessData) (ts : List Nat)
    (hreg : getExtensionFeature srv.registry f = some ft)
    (hsf : getExtensionFeatureState srv.state e f = some fs)
    (hd : fs.disabled = some false)
    (hcur : fs.accessData.current = some c1)
    (hc1 : c1.count ≠ 0) :
    (getAccessN srv e f ts).2.1 = List.replicate ts.length true ∧
    (getAccessN srv e f ts).2.2.length = ts.length ∧
    (∀ ev ∈ (getAccessN srv e f ts).2.2, ∃ ad, ev = Event.accessDataChanged e f ad) ∧
    (getAccessN srv e f ts).1.registry = srv.registry ∧
    (ts ≠ [] → (getAccessN srv e f ts).1.storage
        = serializeState (getAccessN srv e f ts).1.state) ∧
    ∃ fs2 cc, getExtensionFeatureState (getAccessN srv e f ts).1.state e f = some fs2 ∧
      fs2.disabled = some false ∧
      fs2.accessData.totalCount = fs.accessData.totalCount + ts.length ∧
      fs2.accessData.current = some cc ∧
      cc.count = c1.count + ts.length ∧
      cc.lastAccessed = ts.getLastD c1.lastAccessed := by
  induction ts generalizing srv fs c1 with
  | nil =>
    refine ⟨rfl, rfl, ?_, rfl, ?_, fs, c1, hsf, hd, rfl, hcur, rfl, rfl⟩
    · intro ev hev
      simp [getAccessN] at hev
    · intro hne
      exact absurd rfl hne
  | cons t rest ih =>
    have hstep := getAccess_enabled srv e f ft fs true t hreg hsf hd
    have hlook : getExtensionFeatureState
        (saveState { srv with
          state := setFeatureState srv.state e f (accessUpdate fs t) }).state e f
        = some (accessUpdate fs t) := by
      show getExtensionFeatureState (setFeatureState srv.state e f (accessUpdate fs t)) e f = _
      rw [getExtensionFeatureState_set]
      simp
    have hd1 : (accessUpdate fs t).disabled = some false := by
      simp [accessUpdate, hd]
    have hcur1 : (accessUpdate fs t).accessData.current
        = some { count := c1.count + 1, lastAccessed := t, status := c1.status } := by
      simp [accessUpdate, hcur, hc1]
    have htc1 : (accessUpdate fs t).accessData.totalCount
        = fs.accessData.totalCount + 1 := rfl
    obtain ⟨ih1, ih2, ih3, ih4, ih5, fs2, cc, ihl, ihd, ihtc, ihcur, ihcnt, ihla⟩ :=
      ih (saveState { srv with
            state := setFeatureState srv.state e f (accessUpdate fs t) })
        (accessUpdate fs t)
        ({ count := c1.count + 1, lastAccessed := t, status := c1.status })
        hreg hlook hd1 hcur1 (by simp)
    have hunfold : getAccessN srv e f (t :: rest)
        = ((getAccessN (saveState { srv with
              state := setFeatureState srv.state e f (accessUpdate fs t) }) e f rest).1,
           true :: (getAccessN (saveState { srv with
              state := setFeatureState srv.state e f (accessUpdate fs t) }) e f rest).2.1,
           [Event.accessDataChanged e f (accessUpdate fs t).accessData]
             ++ (getAccessN (saveState { srv with
              state := setFeatureState srv.state e f (accessUpdate fs t) }) e f rest).2.2) := by
      simp [getAccessN, hstep]
    rw [hunfold]
    refine ⟨?_, ?_, ?_, ih4, ?_, fs2, cc, ihl, ihd, ?_, ihcur, ?_, ?_⟩
    · simp [ih1, List.replicate_succ]
    · simp [ih2]
    · intro ev hev
      simp only [List.mem_append, List.mem_singleton] at hev
      rcases hev with hev | hev
      · exact ⟨(accessUpdate fs t).accessData, hev⟩
      · exact ih3 ev hev
    · intro _
      cases hrest : rest with
      | nil => subst hrest; rfl
      | cons b m =>
        subst hrest
        exact ih5 (by simp)
    · rw [ihtc, htc1]
      simp only [List.length_cons]
      omega
    · rw [ihcnt]
      simp only [List.length_cons]
      omega
    · rw [ihla]
      exact (getLastD_cons_eq t rest c1.lastAccessed).symm

/-- C3: N repeated `getAccess` calls on an already-enabled pair (with no
prior session count) all return true, raise `totalCount` by N, set
`current.count` to N and `current.lastAccessed` to the last call's
timestamp, persist, and fire one access-data-changed event per call. -/
theorem C3_repeated_access (srv : Service) (e f : String) (ft : ExtensionFeature)
    (fs : FeatureState) (ts : List Nat)
    (hreg : getExtensionFeature srv.registry f = some ft)
    (hsf : getExtensionFeatureState srv.state e f = some fs)
    (hd : fs.disabled = some false)
    (hcur0 : currentCount fs.accessData = 0)
    (hts : ts ≠ []) :
    (getAccessN srv e f ts).2.1 = List.replicate ts.length true ∧
    (getAccessN srv e f ts).2.2.length = ts.length ∧
    (∀ ev ∈ (getAccessN srv e f ts).2.2, ∃ ad, ev = Event.accessDataChanged e f ad) ∧
    (getAccessN srv e f ts).1.storage = serializeState (getAccessN srv e f ts).1.state ∧
    ∃ fs2 cc, getExtensionFeatureState (getAccessN srv e f ts).1.state e f = some fs2 ∧
      fs2.accessData.totalCount = fs.accessData.totalCount + ts.length ∧
      fs2.accessData.current = some cc ∧
      cc.count = ts.length ∧
      cc.lastAccessed = ts.getLastD 0 := by
  cases ts with
  | nil => exact absurd rfl hts
  | cons t rest =>
    have hstep := getAccess_enabled srv e f ft fs true t hreg hsf hd
    have hlook : getExtensionFeatureState
        (saveState { srv with
          state := setFeatureState srv.state e f (accessUpdate fs t) }).state e f
        = some (accessUpdate fs t) := by
      show getExtensionFeatureState (setFeatureState srv.state e f (accessUpdate fs t)) e f = _
      rw [getExtensionFeatureState_set]
      simp
    have hd1 : (accessUpdate fs t).disabled = some false := by
      simp [accessUpdate, hd]
    have hcur1 : (accessUpdate fs t).accessData.current
        = some { count := 1, lastAccessed := t,
                 status := fs.accessData.current.bind CurrentAccessData.status } := by
      cases hc : fs.accessData.current with
      | none => simp [accessUpdate, hc]
      | some c0 =>
        have hz : c0.count = 0 := by simpa [currentCount, hc] using hcur0
        simp [accessUpdate, hc, hz]
    have htc1 : (accessUpdate fs t).accessData.totalCount
        = fs.accessData.totalCount + 1 := rfl
    obtain ⟨ih1, ih2, ih3, ih4, ih5, fs2, cc, ihl, ihd, ihtc, ihcur, ihcnt, ihla⟩ :=
      getAccessN_enabled_pos (saveState { srv with
          state := setFeatureState srv.state e f (accessUpdate fs t) }) e f ft
        (accessUpdate fs t)
        ({ count := 1, lastAccessed := t,
           status := fs.accessData.current.bind CurrentAccessData.status })
        rest hreg hlook hd1 hcur1 (by simp)
    have hunfold : getAccessN srv e f (t :: rest)
        = ((getAccessN (saveState { srv with
              state := setFeatureState srv.state e f (accessUpdate fs t) }) e f rest).1,
           true :: (getAccessN (saveState { srv with
              state := setFeatureState srv.state e f (accessUpdate fs t) }) e f rest).2.1,
           [Event.accessDataChanged e f (accessUpdate fs t).accessData]
             ++ (getAccessN (saveState { srv with
              state := setFeatureState srv.state e f (accessUpdate fs t) }) e f rest).2.2) := by
      simp [getAccessN, hstep]
    rw [hunfold]
    refine ⟨?_, ?_, ?_, ?_, fs2, cc, ihl, ?_, ihcur, ?_, ?_⟩
    · simp [ih1, List.replicate_succ]
    · simp [ih2]
    · intro ev hev
      simp only [List.mem_append, List.mem_singleton] at hev
      rcases hev with hev | hev
      · exact ⟨(accessUpdate fs t).accessData, hev⟩
      · exact ih3 ev hev
    · cases hrest : rest with
      | nil => subst hrest; rfl
      | cons b m =>
        subst hrest
        exact ih5 (by simp)
    · rw [ihtc, htc1]
      simp only [List.length_cons]
      omega
    · rw [ihcnt]
      simp only [List.length_cons]
      omega
    · rw [ihla]
      exact (getLastD_cons_eq t rest 0).symm

/-- C3 witness: two repeated accesses on a concretely enabled pair. -/
theorem C3_witness :
    (getAccessN srvEnabled "e1" "f1" [5, 7]).2.1 = List.replicate 2 true ∧
    (getAccessN srvEnabled "e1" "f1" [5, 7]).2.2.length = 2 ∧
    (∀ ev ∈ (getAccessN srvEnabled "e1" "f1" [5, 7]).2.2,
      ∃ ad, ev = Event.accessDataChanged "e1" "f1" ad) ∧
    (getAccessN srvEnabled "e1" "f1" [5, 7]).1.storage
      = serializeState (getAccessN srvEnabled "e1" "f1" [5, 7]).1.state ∧
    ∃ fs2 cc, getExtensionFeatureState (getAccessN srvEnabled "e1" "f1" [5, 7]).1.state
        "e1" "f1" = some fs2 ∧
      fs2.accessData.totalCount = fsEnabled.accessData.totalCount + 2 ∧
      fs2.accessData.current = some cc ∧
      cc.count = 2 ∧
      cc.lastAccessed = [5, 7].getLastD 0 :=
  C3_repeated_access srvEnabled "e1" "f1" ftW fsEnabled [5, 7]
    (by decide) (by decide) (by decide) (by decide) (by decide)

end ExtensionFeaturesManagement

namespace ExtensionFeaturesManagement

theorem totalCountAt_step (srv : Service) (op : Op) (e f : String) :
    totalCountAt (step srv op) e f
      = totalCountAt srv e f + (if grantedAccessOp srv op e f then 1 else 0) := by
  cases op with
  | isEnabledQuery e1 f1 => simp [step, stepE, grantedAccessOp]
  | accessDataQuery e1 f1 => simp [step, stepE, grantedAccessOp]
  | enablement e1 f1 b =>
    have hg : grantedAccessOp srv (Op.enablement e1 f1 b) e f = false := rfl
    simp only [hg, Bool.false_eq_true, if_false, Nat.add_zero]
    cases hreg : getExtensionFeature srv.registry f1 with
    | none => simp [step, stepE, setEnablement_unregistered _ _ _ _ hreg]
    | some ft =>
      by_cases hch : ((getExtensionFeatureState srv.state e1 f1).getD
          emptyFeatureState).disabled = some (!b)
      · simp [step, stepE, setEnablement_noop _ _ _ _ _ hreg hch]
      · simp only [step, stepE, setEnablement_change _ _ _ _ _ hreg hch]
        by_cases hef : e = e1 ∧ f = f1
        · obtain ⟨rfl, rfl⟩ := hef
          simp only [totalCountAt, saveState, getExtensionFeatureState_set]
          cases hsf : getExtensionFeatureState srv.state e f <;>
            simp [hsf, emptyFeatureState]
        · simp [totalCountAt, saveState, getExtensionFeatureState_set, hef]
  | status e1 f1 stt =>
    have hg : grantedAccessOp srv (Op.status e1 f1 stt) e f = false := rfl
    simp only [hg, Bool.false_eq_true, if_false, Nat.add_zero]
    cases hreg : getExtensionFeature srv.registry f1 with
    | none => simp [step, stepE, setStatus_unregistered _ _ _ _ hreg]
    | some ft =>
      simp only [step, stepE, setStatus_spec _ _ _ _ _ hreg]
      by_cases hef : e = e1 ∧ f = f1
      · obtain ⟨rfl, rfl⟩ := hef
        simp only [totalCountAt, getExtensionFeatureState_set]
        cases hsf : getExtensionFeatureState srv.state e f <;>
          simp [hsf, statusUpdate, emptyFeatureState]
      · simp [totalCountAt, getExtensionFeatureState_set, hef]
  | access e1 f1 cf n =>
    by_cases hef : e1 = e ∧ f1 = f
    · obtain ⟨rfl, rfl⟩ := hef
      have hg : grantedAccessOp srv (Op.access e1 f1 cf n) e1 f1
          = (getAccess srv e1 f1 cf n).1 := by simp [grantedAccessOp]
      rw [hg]
      cases hreg : getExtensionFeature srv.registry f1 with
      | none => simp [step, stepE, getAccess_unregistered _ _ _ _ _ hreg]
      | some ft =>
        cases hsf : getExtensionFeatureState srv.state e1 f1 with
        | some fs =>
          cases hd : fs.disabled with
          | some bb =>
            cases bb with
            | true => simp [step, stepE, getAccess_disabledTrue _ _ _ _ _ _ _ hreg hsf hd]
            | false =>
              simp [step, stepE, getAccess_enabled _ _ _ _ _ _ _ hreg hsf hd,
                totalCountAt, saveState, getExtensionFeatureState_set, hsf, accessUpdate]
          | none =>
            have hund : (getExtensionFeatureState srv.state e1 f1).bind
                FeatureState.disabled = none := by rw [hsf]; simpa using hd
            cases cf with
            | true =>
              simp [step, stepE, getAccess_undecided_allow _ _ _ _ _ hreg hund,
                totalCountAt, saveState, getExtensionFeatureState_set, hsf, accessUpdate]
            | false =>
              simp [step, stepE, getAccess_undecided_deny _ _ _ _ _ hreg hund,
                totalCountAt, saveState, getExtensionFeatureState_set, hsf]
        | none =>
          have hund : (getExtensionFeatureState srv.state e1 f1).bind
              FeatureState.disabled = none := by rw [hsf]; rfl
          cases cf with
          | true =>
            simp [step, stepE, getAccess_undecided_allow _ _ _ _ _ hreg hund,
              totalCountAt, saveState, getExtensionFeatureState_set, hsf, accessUpdate,
              emptyFeatureState]
          | false =>
            simp [step, stepE, getAccess_undecided_deny _ _ _ _ _ hreg hund,
              totalCountAt, saveState, getExtensionFeatureState_set, hsf, emptyFeatureState]
    · have hg : grantedAccessOp srv (Op.access e1 f1 cf n) e f = false := by
        simp [grantedAccessOp, hef]
      have hcond : ¬(e = e1 ∧ f = f1) := by
        rintro ⟨rfl, rfl⟩
        exact hef ⟨rfl, rfl⟩
      simp only [hg, Bool.false_eq_true, if_false, Nat.add_zero]
      cases hreg : getExtensionFeature srv.registry f1 with
      | none => simp [step, stepE, getAccess_unregistered _ _ _ _ _ hreg]
      | some ft =>
        cases hsf : getExtensionFeatureState srv.state e1 f1 with
        | some fs =>
          cases hd : fs.disabled with
          | some bb =>
            cases bb with
            | true => simp [step, stepE, getAccess_disabledTrue _ _ _ _ _ _ _ hreg hsf hd]
            | false =>
              simp [step, stepE, getAccess_enabled _ _ _ _ _ _ _ hreg hsf hd,
                totalCountAt, saveState, getExtensionFeatureState_set, hcond]
          | none =>
            have hund : (getExtensionFeatureState srv.state e1 f1).bind
                FeatureState.disabled = none := by rw [hsf]; simpa using hd
            cases cf with
            | true =>
              simp [step, stepE, getAccess_undecided_allow _ _ _ _ _ hreg hund,
                totalCountAt, saveState, getExtensionFeatureState_set, hcond]
            | false =>
              simp [step, stepE, getAccess_undecided_deny _ _ _ _ _ hreg hund,
                totalCountAt, saveState, getExtensionFeatureState_set, hcond]
        | none =>
          have hund : (getExtensionFeatureState srv.state e1 f1).bind
              FeatureState.disabled = none := by rw [hsf]; rfl
          cases cf with
          | true =>
            simp [step, stepE, getAccess_undecided_allow _ _ _ _ _ hreg hund,
              totalCountAt, saveState, getExtensionFeatureState_set, hcond]
          | false =>
            simp [step, stepE, getAccess_undecided_deny _ _ _ _ _ hreg hund,
              totalCountAt, saveState, getExtensionFeatureState_set, hcond]

/-- C9: for any pair, one operation changes the lifetime total by exactly 1
when it is a granted access (a `getAccess` call on that pair returning true)
and by 0 otherwise, and the total is monotonically non-decreasing over every
operation sequence. -/
theorem C9_totalCount_monotone (e f : String) :
    (∀ srv op, totalCountAt (step srv op) e f
      = totalCountAt srv e f + (if grantedAccessOp srv op e f then 1 else 0)) ∧
    (∀ srv ops, totalCountAt srv e f ≤ totalCountAt (run srv ops) e f) := by
  refine ⟨fun srv op => totalCountAt_step srv op e f, ?_⟩
  intro srv ops
  induction ops generalizing srv with
  | nil => exact le_refl _
  | cons op ops ih =>
    have hr : run srv (op :: ops) = run (step srv op) ops := rfl
    rw [hr]
    calc totalCountAt srv e f
        ≤ totalCountAt (step srv op) e f := by
          rw [totalCountAt_step srv op e f]
          exact Nat.le_add_right _ _
      _ ≤ totalCountAt (run (step srv op) ops) e f := ih _

/-- C9 witness: the totalCount step law and monotonicity at concrete inputs. -/
theorem C9_witness :
    totalCountAt (step srvEnabled (Op.access "e1" "f1" true 5)) "e1" "f1"
      = totalCountAt srvEnabled "e1" "f1"
        + (if grantedAccessOp srvEnabled (Op.access "e1" "f1" true 5) "e1" "f1"
           then 1 else 0) ∧
    totalCountAt srvEnabled "e1" "f1"
      ≤ totalCountAt (run srvEnabled [Op.access "e1" "f1" true 5, Op.status "e1" "f1" none])
          "e1" "f1" :=
  ⟨(C9_totalCount_monotone "e1" "f1").1 srvEnabled (Op.access "e1" "f1" true 5),
   (C9_totalCount_monotone "e1" "f1").2 srvEnabled
     [Op.access "e1" "f1" true 5, Op.status "e1" "f1" none]⟩

end ExtensionFeaturesManagement

namespace ExtensionFeaturesManagement

/-- C10: `isEnabled` and `getAccessData` run as operations leave the service
(state, storage) untouched and fire no events; a pair with no record still
has no access data after any number of `isEnabled` calls, whereas `setStatus`
on a registered feature lazily creates the record, so `getAccessData` becomes
defined with `totalCount = 0` and zeroed session fields. -/
theorem C10_queries_pure (srv : Service) (e f : String) :
    stepE srv (Op.isEnabledQuery e f) = (srv, []) ∧
    stepE srv (Op.accessDataQuery e f) = (srv, []) ∧
    (∀ n, run srv (List.replicate n (Op.isEnabledQuery e f)) = srv) ∧
    (getExtensionFeatureState srv.state e f = none →
      (∀ n, getAccessData (run srv (List.replicate n (Op.isEnabledQuery e f))) e f = none) ∧
      ∀ ft status, getExtensionFeature srv.registry f = some ft →
        ∃ srv1 evs, setStatus srv e f status = Except.ok (srv1, evs) ∧
          getAccessData srv1 e f
            = some { totalCount := 0,
                     current := some { count := 0, lastAccessed := 0, status := status } }) := by
  have hpure : ∀ n, run srv (List.replicate n (Op.isEnabledQuery e f)) = srv := by
    intro n
    induction n with
    | zero => rfl
    | succ k ih =>
      have hrepl : List.replicate (k + 1) (Op.isEnabledQuery e f)
          = Op.isEnabledQuery e f :: List.replicate k (Op.isEnabledQuery e f) :=
        List.replicate_succ _ _
      rw [hrepl]
      exact ih
  refine ⟨rfl, rfl, hpure, ?_⟩
  intro hnone
  constructor
  · intro n
    rw [hpure n]
    cases hreg : getExtensionFeature srv.registry f <;>
      simp [getAccessData, hreg, hnone]
  · intro ft status hreg
    rw [setStatus_spec _ _ _ _ _ hreg]
    refine ⟨_, _, rfl, ?_⟩
    simp [getAccessData, hreg, getExtensionFeatureState_set, hnone, statusUpdate,
      emptyFeatureState]

/-- C10 witness: the observation-only theorem at concrete inputs. -/
theorem C10_witness :
    stepE srvInit (Op.isEnabledQuery "e1" "f1") = (srvInit, []) ∧
    stepE srvInit (Op.accessDataQuery "e1" "f1") = (srvInit, []) ∧
    getAccessData (run srvInit (List.replicate 3 (Op.isEnabledQuery "e1" "f1"))) "e1" "f1"
      = none ∧
    ∃ srv1 evs, setStatus srvInit "e1" "f1" (some statusW) = Except.ok (srv1, evs) ∧
      getAccessData srv1 "e1" "f1"
        = some { totalCount := 0,
                 current := some { count := 0, lastAccessed := 0,
                                   status := some statusW } } := by
  have h := C10_queries_pure srvInit "e1" "f1"
  exact ⟨h.1, h.2.1, (h.2.2.2 (by decide)).1 3,
    (h.2.2.2 (by decide)).2 ftW (some statusW) (by decide)⟩

end ExtensionFeaturesManagement
